import Mathlib

/-!
Verification of the functions-emulator invocation gateway and worker
supervisor (`src/emulator/functionsEmulator.ts`).

The definitions below are a shallow embedding of that file: the gateway
request handler, the response-forwarding state machine, the pipe log
framing of `InvokeRuntime`, the `waitForLog` event waiter, the trigger
reload loop, the spawn call, and `stop()`.  External collaborators
(`JSON.parse`, `EmulatorLog.fromJSON`, the express framework, the file
system) are modelled as parameters where the code uses them, so every
theorem quantifies over their behaviour.
-/

/-- One entry of the trigger table: `EmulatedTriggerDefinition` restricted to
the fields this file inspects (`name`, the `httpsTrigger` tag,
`eventTrigger.service`, and the region used for the public URL).  In the
`triggers-parsed` record the per-invocation map stores entries whose
`definition` is such a value; the embedding collapses `entry.definition`
into the entry itself. -/
structure TriggerDefinition where
  name : String
  httpsTrigger : Bool
  service : String
  region : String
  deriving DecidableEq, Repr

/-- Payload (`data`) of a worker log record, restricted to the fields the
gateway inspects: `socketPath` (ready record), `triggers` (per-invocation
map of the triggers-parsed record) and `triggerDefinitions` (diagnostic
triggers-parsed record). -/
structure LogData where
  socketPath : Option String := none
  triggers : List (String × TriggerDefinition) := []
  triggerDefinitions : List TriggerDefinition := []
  deriving DecidableEq, Repr

/-- A structured worker log record (`EmulatorLog`): `level`, `type`, `text`
plus the inspected `data` fields.  Levels and types are the strings the
source compares against (`el.level === "FATAL"` and so on). -/
structure EmulatorLog where
  level : String
  type : String
  text : String
  data : LogData := {}
  deriving DecidableEq, Repr

/-- The match predicate of `waitForLog` (lines 754-762): level and type must
be equal and the optional filter must hold. -/
def logMatches (level type : String) (filt : EmulatorLog → Bool) (el : EmulatorLog) : Bool :=
  el.level == level && el.type == type && filt el

/-- Outcome of a one-shot javascript promise: still pending, resolved with a
value, or rejected with an error. -/
inductive PromiseState (ε α : Type) where
  | pending
  | resolved (value : α)
  | rejected (err : ε)
  deriving DecidableEq, Repr

/-- The waiter `waitForLog(emitter, level, type, filter)` (lines 748-767) over a
finite emission trace.  The executor subscribes to `"log"` events and calls
`resolve` on the first match; the `reject` function is never invoked and no
other event (in particular not worker exit) is subscribed to, so over any
trace the promise is either resolved with the first matching record or
still pending. -/
def waitForLogPromise (trace : List EmulatorLog) (level type : String)
    (filt : EmulatorLog → Bool) : PromiseState String EmulatorLog :=
  match trace.find? (logMatches level type filt) with
  | some el => .resolved el
  | none => .pending

/-- A finished worker run as the gateway can observe it: the records emitted
on the unified event stream, and the exit code when the process exited. -/
structure WorkerRun where
  events : List EmulatorLog
  exitCode : Option Int
  deriving DecidableEq, Repr

/-- The `ready` promise of `InvokeRuntime` (lines 728-732):
`waitForLog(emitter, "SYSTEM", "runtime-status", text == "ready")`.  The
run's exit code is not consulted: nothing in the source connects process
exit to this waiter. -/
def runtimeReady (run : WorkerRun) : PromiseState String EmulatorLog :=
  waitForLogPromise run.events "SYSTEM" "runtime-status" (fun el => el.text == "ready")

/-! ### Pipe framing of `InvokeRuntime` (lines 694-726) -/

/-- The synthetic record emitted when a FATAL log is seen or `kill()` is
called: `new EmulatorLog("SYSTEM", "runtime-status", "killed")`. -/
def killedRecord : EmulatorLog :=
  { level := "SYSTEM", type := "runtime-status", text := "killed" }

/-- An observable action of the supervisor: a record emitted on the unified
event stream, or a `runtime.kill(signal)` call (`none` = default signal). -/
inductive Emission where
  | log (el : EmulatorLog)
  | kill (signal : Option String)
  deriving DecidableEq, Repr

/-- Processing of one complete line (lines 709-720): parse it, emit the
record; if the record is FATAL, additionally emit the synthetic killed
record and kill the child with the default signal.  `parse` stands for
`EmulatorLog.fromJSON`, which lives outside this file. -/
def emitForLine (parse : String → EmulatorLog) (line : String) : List Emission :=
  let lg := parse line
  if lg.level == "FATAL" then [.log lg, .log killedRecord, .kill none]
  else [.log lg]

/-- The per-pipe `data` handler (lines 704-724): append the chunk to the
carried partial line, split on newlines, process every complete line, and
keep the trailing partial line buffered. -/
def onData (parse : String → EmulatorLog) (buffered chunk : String) :
    String × List Emission :=
  let value := buffered ++ chunk
  let lines := value.splitOn "\n"
  (lines.getLastD "", lines.dropLast.flatMap (emitForLine parse))

/-- A whole sequence of `data` events on one pipe, threading the partial-line
buffer and concatenating the emissions in order. -/
def processChunks (parse : String → EmulatorLog) :
    String → List String → String × List Emission
  | buffered, [] => (buffered, [])
  | buffered, c :: cs =>
    let step := onData parse buffered c
    let rest := processChunks parse step.1 cs
    (rest.1, step.2 ++ rest.2)

/-- Checks the FATAL protocol over an emission sequence: every emitted FATAL
record is immediately followed by the synthetic killed record and then by a
kill with the default signal. -/
def fatalKilledOk : List Emission → Bool
  | [] => true
  | .log r :: rest =>
    if r.level == "FATAL" then
      match rest with
      | .log r2 :: .kill sig :: rest2 =>
        decide (r2 = killedRecord) && sig.isNone && fatalKilledOk rest2
      | _ => false
    else fatalKilledOk rest
  | .kill _ :: rest => fatalKilledOk rest

/-! ### Outbound response (express `res` over Node `http.ServerResponse`) -/

/-- State of the outbound response.  `statusCode`/`headers` are the mutable
fields; `sentStatus`/`sentHeaders` capture what actually went on the wire
when the headers were flushed (first body write or end); `endCount` counts
effective `end` transitions. -/
structure Res where
  statusCode : Nat := 200
  headers : List (String × String) := []
  headersSent : Bool := false
  sentStatus : Option Nat := none
  sentHeaders : Option (List (String × String)) := none
  body : List String := []
  ended : Bool := false
  endCount : Nat := 0
  deriving DecidableEq, Repr

/-- Node semantics: the first body write or end flushes the current status
code and header set to the wire; later mutations of `statusCode` or
`headers` have no wire effect. -/
def Res.flushHeaders (r : Res) : Res :=
  if r.headersSent then r
  else { r with headersSent := true, sentStatus := some r.statusCode,
                sentHeaders := some r.headers }

/-- Node `res.write(chunk)`: flushes headers, appends a body chunk; a write on an
already-ended response puts nothing on the wire. -/
def Res.write (r : Res) (chunk : String) : Res :=
  if r.ended then r
  else
    let r := r.flushHeaders
    { r with body := r.body ++ [chunk] }

/-- Node `res.end()`: flushes headers and ends the response; a second `end` is a
no-op on the wire. -/
def Res.endRes (r : Res) : Res :=
  if r.ended then r
  else
    let r := r.flushHeaders
    { r with ended := true, endCount := r.endCount + 1 }

/-- express `res.status(c)`: mutates the status code field (no wire effect
by itself). -/
def Res.status (r : Res) (c : Nat) : Res :=
  { r with statusCode := c }

/-- Node `res.setHeader(k, v)`: upserts a header field.  In the source this is
only called under a `headersSent` guard, so the ended/sent cases never
reach it. -/
def Res.setHeader (r : Res) (k v : String) : Res :=
  { r with headers :=
      if r.headers.any (fun kv => kv.1 == k) then
        r.headers.map (fun kv => if kv.1 == k then (k, v) else kv)
      else r.headers ++ [(k, v)] }

/-- express `res.send(text)`: writes the text and ends the response; on an
already-ended response it throws without any wire effect. -/
def Res.send (r : Res) (text : String) : Res :=
  if r.ended then r else (r.write text).endRes

/-- express `res.json(j)` with the serialized body `s`: sets the content
type and sends; on an already-ended response it throws without any wire
effect. -/
def Res.json (r : Res) (s : String) : Res :=
  if r.ended then r else ((r.setHeader "Content-Type" "application/json").write s).endRes

/-- The worker-side HTTP response as seen by the forwarding callbacks:
`runtimeRes.statusCode` (absent means default 200) and its header map. -/
structure RuntimeRes where
  statusCode : Option Nat := none
  headers : List (String × String) := []
  deriving DecidableEq, Repr

/-- The callback `forwardStatusAndHeaders` (lines 218-228): set the status, then copy the
worker's headers only when the outbound headers have not been flushed yet. -/
def forwardStatusAndHeaders (rr : RuntimeRes) (r : Res) : Res :=
  let r := r.status (rr.statusCode.getD 200)
  if r.headersSent then r
  else rr.headers.foldl (fun acc kv => acc.setHeader kv.1 kv.2) r

/-- Events that can reach the outbound response of an HTTP-trigger
invocation: worker-response `data`/`close`/`end` (lines 230-243), an error
on the worker-facing request or on the request-body pipe (lines 247-249 and
264-266), and a FATAL log delivered to the subscriber of lines 166-170. -/
inductive ResEvent where
  | data (chunk : String)
  | close
  | endEv
  | reqError
  | pipeError
  | fatal (text : String)
  deriving DecidableEq, Repr

/-- One step of the outbound response under the handlers installed by the
gateway, exactly as the source wires them. -/
def stepRes (rr : RuntimeRes) (r : Res) : ResEvent → Res
  | .data chunk => (forwardStatusAndHeaders rr r).write chunk
  | .close => (forwardStatusAndHeaders rr r).endRes
  | .endEv => (forwardStatusAndHeaders rr r).endRes
  | .reqError => r.endRes
  | .pipeError => r.endRes
  | .fatal text => r.send text

/-- The outbound response after a sequence of events. -/
def runRes (rr : RuntimeRes) (r : Res) (evs : List ResEvent) : Res :=
  evs.foldl (stepRes rr) r

/-- Events that attempt to end the outbound response. -/
def endingEvent : ResEvent → Bool
  | .data _ => false
  | _ => true

/-- The basic wellformedness of a response state: it is ended at most once,
ending flushes the headers, and flushing records the wire values. -/
def ResInv (r : Res) : Prop :=
  (r.endCount = if r.ended then 1 else 0) ∧
  (r.ended = true → r.headersSent = true) ∧
  (r.headersSent = true ↔ r.sentStatus.isSome)


/-! ### The gateway request handler (lines 155-269) -/

/-- The match used by the runtime's `ready` waiter (lines 728-730). -/
def isReadyRec (el : EmulatorLog) : Bool :=
  logMatches "SYSTEM" "runtime-status" (fun l => l.text == "ready") el

/-- The match used by the triggers-parsed waiters (lines 174 and 442). -/
def isTpRec (el : EmulatorLog) : Bool :=
  logMatches "SYSTEM" "triggers-parsed" (fun _ => true) el

/-- javascript property lookup `triggerMap[triggerName]` with the
`.definition` projection of lines 183-184 collapsed into the entry. -/
def lookupTrigger (name : String) (d : LogData) : Option TriggerDefinition :=
  (d.triggers.find? (fun kv => kv.1 == name)).map (fun kv => kv.2)

/-- The serialized body of `res.json({ status: "acknowledged" })`, line 197. -/
def ackBody : String := "\x7b\"status\":\"acknowledged\"\x7d"

/-- A rejection of the async handler promise.  express 4 does not observe
rejections of an async route handler, so no response is written on these
paths. -/
inductive HandlerCrash where
  | syntaxError
  | typeErrorUndefinedTrigger
  deriving DecidableEq, Repr

/-- An event observable by one invocation: a record on the runtime's unified
event stream, or the exit of the worker process. -/
inductive WEvent where
  | log (el : EmulatorLog)
  | exit (code : Int)
  deriving DecidableEq, Repr

/-- The handler's per-invocation state: which one-shots have fired
(`readySeen`, the captured first triggers-parsed payload, `exited`), whether
the acknowledgement of line 197 was already sent, a pending crash, the
number of workers spawned for this request, and the outbound response. -/
structure HState where
  readySeen : Bool := false
  tpData : Option LogData := none
  exited : Bool := false
  acked : Bool := false
  crash : Option HandlerCrash := none
  spawns : Nat := 1
  res : Res := {}
  deriving DecidableEq, Repr

/-- Whether both `await runtime.ready` (line 177) and
`await triggerLogPromise` (line 180) have completed. -/
def startupDone (s : HState) : Bool :=
  s.readySeen && s.tpData.isSome

/-- Resumption of the handler once the one-shots it awaits have fired: after
ready and triggers-parsed, look the trigger up — `triggerMap[triggerName]`
is `undefined` for an unknown name and line 184 throws — and for a non-HTTP
trigger reply with the ACK once the worker has exited (lines 194-198).  For
an HTTP trigger the response is driven by `stepRes`, not here.  A crashed
handler runs no further continuations. -/
def advance (name : String) (s : HState) : HState :=
  if startupDone s ∧ s.crash.isNone then
    match s.tpData with
    | some d =>
      match lookupTrigger name d with
      | none => { s with crash := some .typeErrorUndefinedTrigger }
      | some t =>
        if t.httpsTrigger then s
        else if s.exited ∧ s.acked = false then
          { s with acked := true, res := s.res.json ackBody }
        else s
    | none => s
  else s

/-- One event step of an in-flight invocation: the FATAL subscriber of lines
166-170 sends the log text to the outbound response; the ready and
triggers-parsed waiters record their first matches; `exit` resolves the exit
promise; then any continuation whose awaited one-shots have now fired
runs. -/
def hstep (name : String) (s : HState) : WEvent → HState
  | .log el =>
    let s1 := if el.level == "FATAL" then { s with res := s.res.send el.text } else s
    let s2 := if isReadyRec el then { s1 with readySeen := true } else s1
    let s3 := if isTpRec el ∧ s2.tpData.isNone then { s2 with tpData := some el.data } else s2
    advance name s3
  | .exit _ => advance name { s with exited := true }

/-- Observable outcome of one request. -/
structure HOut where
  proto : Option String
  spawns : Nat
  crash : Option HandlerCrash
  acked : Bool
  res : Res
  deriving DecidableEq, Repr

/-- The request handler (lines 155-269) over a finite event trace: parse the
buffered body (line 162; `jsonParse` stands for `JSON.parse`, `none` for a
throw, and an empty body is not parsed), spawn the runtime (line 164), then
react to the runtime's events. -/
def handlerRun (jsonParse : String → Option String) (name rawBody : String)
    (tr : List WEvent) : HOut :=
  if rawBody ≠ "" ∧ (jsonParse rawBody).isNone then
    { proto := none, spawns := 0, crash := some .syntaxError, acked := false, res := {} }
  else
    let proto := if rawBody = "" then none else jsonParse rawBody
    let s := tr.foldl (hstep name) {}
    { proto := proto, spawns := s.spawns, crash := s.crash, acked := s.acked, res := s.res }

/-- The log records of a trace, in stream order. -/
def traceLogs : List WEvent → List EmulatorLog
  | [] => []
  | .log el :: r => el :: traceLogs r
  | .exit _ :: r => traceLogs r

/-- Whether the ready record occurs in the trace. -/
def hasReady (tr : List WEvent) : Bool := (traceLogs tr).any isReadyRec

/-- Whether a triggers-parsed record occurs in the trace. -/
def hasTp (tr : List WEvent) : Bool := (traceLogs tr).any isTpRec

/-- The first triggers-parsed record of the trace. -/
def firstTp (tr : List WEvent) : Option EmulatorLog := (traceLogs tr).find? isTpRec

/-- Whether the trace carries no FATAL record. -/
def noFatal (tr : List WEvent) : Bool :=
  (traceLogs tr).all (fun el => el.level != "FATAL")

/-- Whether the worker exited in the trace. -/
def hasExit (tr : List WEvent) : Bool :=
  tr.any (fun e => match e with | .exit _ => true | .log _ => false)

/-- The reachable handler state for a FATAL-free invocation whose first
triggers-parsed payload is `d` and whose trigger is a known non-HTTP
trigger: a function of which of the three one-shots have fired. -/
def goodState (d : LogData) (r p e : Bool) : HState :=
  { readySeen := r,
    tpData := if p then some d else none,
    exited := e,
    acked := r && p && e,
    crash := none,
    spawns := 1,
    res := if r && p && e then Res.json {} ackBody else {} }

/-- The reachable handler state for a FATAL-free invocation whose trigger
name is absent from the first triggers-parsed payload `d`: once both
startup one-shots fire, line 184 throws. -/
def badState (d : LogData) (r p e : Bool) : HState :=
  { readySeen := r,
    tpData := if p then some d else none,
    exited := e,
    acked := false,
    crash := if r && p then some .typeErrorUndefinedTrigger else none,
    spawns := 1,
    res := {} }

/-! ### Trigger reload (`connect` / `loadTriggers` / `addFirestoreTrigger`,
lines 410-540) -/

/-- Modelled from the spec: `Constants.SERVICE_FIRESTORE`, the sole entry of
the supported-services allow-list; `Constants` is outside the source under
verification, so only its role as a fixed service identifier matters. -/
def SERVICE_FIRESTORE : String := "firestore.googleapis.com"

/-- The URL builder `FunctionsEmulator.getHttpFunctionUrl` (lines 72-74). -/
def getHttpFunctionUrl (port : Nat) (projectId name region : String) : String :=
  "http://localhost:" ++ toString port ++ "/" ++ projectId ++ "/" ++ region ++ "/" ++ name

/-- A log line issued through `this.log` / `this.logLabeled`. -/
structure LoadLogEntry where
  level : String
  text : String
  deriving DecidableEq, Repr

/-- Environment of one reload: the sibling firestore emulator port from the
registry, the outcome of the HTTP PUT per trigger name (transport error or
response body), and the acknowledgement test
`JSON.stringify(JSON.parse(body))` equalling the serialized empty object
(line 528; body parsing lives outside this file). -/
structure SiblingEnv where
  firestorePort : Option Nat
  putResult : String → Except String String
  ackCheck : String → Bool

/-- The registrar `addFirestoreTrigger` (lines 495-540): produces its log lines and either
resolves (`true`) or rejects (`false`).  A missing sibling port resolves
with a WARN; a transport error logs WARN and rejects (lines 522-526). -/
def addFirestoreTrigger (env : SiblingEnv) (d : TriggerDefinition) :
    List LoadLogEntry × Bool :=
  match env.firestorePort with
  | none =>
    ([⟨"WARN", "Ignoring trigger \"" ++ d.name ++
        "\" because the Cloud Firestore emulator is not running."⟩], true)
  | some _ =>
    let pre : List LoadLogEntry :=
      [⟨"BULLET", "Setting up Cloud Firestore trigger \"" ++ d.name ++ "\""⟩]
    match env.putResult d.name with
    | .error e => (pre ++ [⟨"WARN", "Error adding trigger: " ++ e⟩], false)
    | .ok body =>
      (pre ++
        (if env.ackCheck body then
          [⟨"SUCCESS", "Trigger \"" ++ d.name ++
            "\" has been acknowledged by the Cloud Firestore emulator."⟩]
        else []), true)

/-- State threaded through one reload. -/
structure LoadState where
  triggers : List TriggerDefinition
  knownTriggerIDs : List String
  logs : List LoadLogEntry
  deriving DecidableEq, Repr

/-- Handling of one newly discovered trigger (lines 452-483): log the public
URL of an HTTP trigger, register a firestore trigger with the sibling
(awaited), warn on an unsupported service; afterwards the name joins
`knownTriggerIDs` (line 482).  The `Bool` is false when the awaited
registration rejected, in which case line 482 is never reached. -/
def processTrigger (env : SiblingEnv) (port : Nat) (projectId : String)
    (st : LoadState) (d : TriggerDefinition) : LoadState × Bool :=
  if d.httpsTrigger then
    ({ st with
        logs := st.logs ++ [⟨"BULLET", "HTTP trigger initialized at " ++
          getHttpFunctionUrl port projectId d.name d.region⟩],
        knownTriggerIDs := st.knownTriggerIDs ++ [d.name] }, true)
  else if d.service = SERVICE_FIRESTORE then
    match addFirestoreTrigger env d with
    | (lgs, true) =>
      ({ st with
          logs := st.logs ++ lgs,
          knownTriggerIDs := st.knownTriggerIDs ++ [d.name] }, true)
    | (lgs, false) => ({ st with logs := st.logs ++ lgs }, false)
  else
    ({ st with
        logs := st.logs ++
          [⟨"DEBUG", "Unsupported trigger: " ++ d.name⟩,
           ⟨"WARN", "Ignoring trigger \"" ++ d.name ++ "\" because the service \"" ++
             d.service ++ "\" is not yet supported."⟩],
        knownTriggerIDs := st.knownTriggerIDs ++ [d.name] }, true)

/-- The setup loop of `loadTriggers` (lines 452-483): sequential; a rejected
awaited registration propagates out of the async function and aborts the
remaining iterations. -/
def runSetup (env : SiblingEnv) (port : Nat) (projectId : String) :
    LoadState → List TriggerDefinition → LoadState × Bool
  | st, [] => (st, true)
  | st, d :: rest =>
    match processTrigger env port projectId st d with
    | (st2, true) => runSetup env port projectId st2 rest
    | (st2, false) => (st2, false)

/-- One reload (`loadTriggers`, lines 435-484): replace the trigger table
(line 450), then set up every discovered trigger not yet in
`knownTriggerIDs`.  The `Bool` of the result is false when the reload was
aborted by a rejected registration. -/
def loadTriggers (env : SiblingEnv) (port : Nat) (projectId : String)
    (known : List String) (defs : List TriggerDefinition) : LoadState × Bool :=
  runSetup env port projectId
    { triggers := defs, knownTriggerIDs := known, logs := [] }
    (defs.filter (fun d => !known.contains d.name))

/-! ### The worker spawn (`InvokeRuntime`, lines 674-692) -/

/-- javascript object-literal insertion: assign `k := v`, overriding an
existing binding in place or appending a new one. -/
def upsert : List (String × String) → String → String → List (String × String)
  | [], k, v => [(k, v)]
  | kv :: rest, k, v => if kv.1 = k then (k, v) :: rest else kv :: upsert rest k v

/-- Property lookup on an object's bindings (keys are unique in any object
built by `upsert`). -/
def lookupEnv (m : List (String × String)) (k : String) : Option String :=
  (m.find? (fun kv => kv.1 == k)).map (fun kv => kv.2)

/-- javascript spread `{ ...m, ...adds }`: assign every binding of `adds`
over `m` in order, later assignments overriding earlier ones. -/
def objSpread (m adds : List (String × String)) : List (String × String) :=
  adds.foldl (fun acc kv => upsert acc kv.1 kv.2) m

/-- The environment object of line 691:
`{ node: nodeBinary, ...opts.env, ...process.env }`. -/
def spawnEnv (nodeBinary : String) (optsEnv procEnv : List (String × String)) :
    List (String × String) :=
  objSpread (objSpread (upsert [] "node" nodeBinary) optsEnv) procEnv

/-- The last binding of a key in a bindings list: what spreading that list
assigns for the key. -/
def lookupLast : List (String × String) → String → Option String
  | [], _ => none
  | kv :: rest, k =>
    (lookupLast rest k).orElse (fun _ => if kv.1 = k then some kv.2 else none)

/-- The `FunctionsRuntimeBundle` restricted to the fields `InvokeRuntime`
reads. -/
structure FunctionsRuntimeBundle where
  projectId : String
  cwd : String
  triggerId : String
  protoJson : Option String := none
  firestorePort : Option Nat := none
  deriving DecidableEq, Repr

/-- A `spawn(cmd, args, options)` call as issued. -/
structure SpawnCall where
  cmd : String
  args : List String
  env : List (String × String)
  cwd : String
  deriving DecidableEq, Repr

/-- The spawn of `InvokeRuntime` (lines 683-692).  `serialize` stands for
`JSON.stringify` and `runtimePath` for the `functionsEmulatorRuntime` entry
path; `opts.serializedTriggers || ""` maps an absent value to the empty
string. -/
def invokeRuntimeSpawn (serialize : FunctionsRuntimeBundle → String)
    (nodeBinary runtimePath : String) (frb : FunctionsRuntimeBundle)
    (serializedTriggers : Option String)
    (optsEnv procEnv : List (String × String)) : SpawnCall :=
  { cmd := nodeBinary,
    args := [runtimePath, serialize frb, serializedTriggers.getD ""],
    env := spawnEnv nodeBinary optsEnv procEnv,
    cwd := frb.cwd }

/-! ### `stop()` (lines 542-544) -/

/-- The listening server handle: whether `close()` has been initiated. -/
structure ServerState where
  closeInitiated : Bool
  deriving DecidableEq, Repr

/-- The emulator state read or touched by `stop()`. -/
structure EmulatorState where
  server : Option ServerState
  triggers : List TriggerDefinition
  knownTriggerIDs : List String
  deriving DecidableEq, Repr

/-- The method `stop()` (lines 542-544): evaluates `this.server && this.server.close()`
inside `Promise.resolve` and returns at once.  `closeDone` is an oracle for
whether the listening socket's close has completed; the returned value never
consults it — the close is fire-and-forget.  When `start()` never ran the
conjunction short-circuits on the undefined `server` and nothing happens. -/
def stop (_closeDone : Bool) (st : EmulatorState) : Unit × EmulatorState :=
  match st.server with
  | none => ((), st)
  | some s => ((), { st with server := some { s with closeInitiated := true } })

/-! ### Theorems -/

theorem fatalKilledOk_emitForLine (parse : String → EmulatorLog) (line : String)
    (rest : List Emission) (h : fatalKilledOk rest = true) :
    fatalKilledOk (emitForLine parse line ++ rest) = true := by
  unfold emitForLine
  by_cases hf : (parse line).level == "FATAL"
  · rw [if_pos hf]
    simp only [List.cons_append, List.nil_append]
    unfold fatalKilledOk
    simp [hf, h]
  · rw [if_neg hf]
    rw [Bool.not_eq_true] at hf
    simp only [List.cons_append, List.nil_append]
    unfold fatalKilledOk
    simp [hf, h]

theorem fatalKilledOk_flatMap (parse : String → EmulatorLog) (lines : List String)
    (rest : List Emission) (h : fatalKilledOk rest = true) :
    fatalKilledOk (lines.flatMap (emitForLine parse) ++ rest) = true := by
  induction lines with
  | nil => simpa using h
  | cons l ls ih =>
    rw [List.flatMap_cons, List.append_assoc]
    exact fatalKilledOk_emitForLine parse l _ ih

theorem fatalKilledOk_processChunks (parse : String → EmulatorLog)
    (buffered : String) (chunks : List String) :
    fatalKilledOk (processChunks parse buffered chunks).2 = true := by
  induction chunks generalizing buffered with
  | nil => rfl
  | cons c cs ih =>
    simp only [processChunks, onData]
    exact fatalKilledOk_flatMap parse _ _ (ih _)

/-- C7: whenever a FATAL record is parsed from a worker pipe, the framing
loop emits the synthetic `SYSTEM/runtime-status="killed"` record immediately
after the FATAL record on the unified stream, and then kills the worker with
the default signal — over any chunking of the pipe and any parse function. -/
theorem fatal_log_kills_and_emits_killed (parse : String → EmulatorLog)
    (buffered : String) (chunks : List String) :
    fatalKilledOk (processChunks parse buffered chunks).2 = true :=
  fatalKilledOk_processChunks parse buffered chunks

theorem resInv_init : ResInv {} := by
  refine ⟨rfl, ?_, ?_⟩ <;> simp

theorem flushHeaders_inv (r : Res) (h : ResInv r) : ResInv r.flushHeaders := by
  obtain ⟨h1, h2, h3⟩ := h
  unfold Res.flushHeaders
  by_cases hs : r.headersSent
  · rw [if_pos hs]; exact ⟨h1, h2, h3⟩
  · rw [if_neg hs]
    refine ⟨h1, fun _ => rfl, by simp⟩

theorem setHeader_fields (r : Res) (k v : String) :
    (r.setHeader k v).headersSent = r.headersSent ∧
    (r.setHeader k v).sentStatus = r.sentStatus ∧
    (r.setHeader k v).sentHeaders = r.sentHeaders ∧
    (r.setHeader k v).ended = r.ended ∧
    (r.setHeader k v).endCount = r.endCount := by
  unfold Res.setHeader
  exact ⟨rfl, rfl, rfl, rfl, rfl⟩

theorem setHeaderFold_fields (r : Res) (hs : List (String × String)) :
    ((hs.foldl (fun acc kv => acc.setHeader kv.1 kv.2) r).headersSent = r.headersSent) ∧
    ((hs.foldl (fun acc kv => acc.setHeader kv.1 kv.2) r).sentStatus = r.sentStatus) ∧
    ((hs.foldl (fun acc kv => acc.setHeader kv.1 kv.2) r).sentHeaders = r.sentHeaders) ∧
    ((hs.foldl (fun acc kv => acc.setHeader kv.1 kv.2) r).ended = r.ended) ∧
    ((hs.foldl (fun acc kv => acc.setHeader kv.1 kv.2) r).endCount = r.endCount) := by
  induction hs generalizing r with
  | nil => exact ⟨rfl, rfl, rfl, rfl, rfl⟩
  | cons kv rest ih =>
    simp only [List.foldl_cons]
    obtain ⟨i1, i2, i3, i4, i5⟩ := ih (r.setHeader kv.1 kv.2)
    obtain ⟨s1, s2, s3, s4, s5⟩ := setHeader_fields r kv.1 kv.2
    exact ⟨i1.trans s1, i2.trans s2, i3.trans s3, i4.trans s4, i5.trans s5⟩

theorem forward_fields (rr : RuntimeRes) (r : Res) :
    ((forwardStatusAndHeaders rr r).headersSent = r.headersSent) ∧
    ((forwardStatusAndHeaders rr r).sentStatus = r.sentStatus) ∧
    ((forwardStatusAndHeaders rr r).sentHeaders = r.sentHeaders) ∧
    ((forwardStatusAndHeaders rr r).ended = r.ended) ∧
    ((forwardStatusAndHeaders rr r).endCount = r.endCount) := by
  unfold forwardStatusAndHeaders Res.status
  dsimp only
  by_cases hs : r.headersSent = true
  · rw [if_pos hs]
    exact ⟨rfl, rfl, rfl, rfl, rfl⟩
  · rw [if_neg hs]
    exact setHeaderFold_fields _ rr.headers

theorem flushHeaders_of_sent (r : Res) (hs : r.headersSent = true) :
    r.flushHeaders = r := by
  unfold Res.flushHeaders
  rw [if_pos hs]

theorem flushHeaders_headersSent (r : Res) : r.flushHeaders.headersSent = true := by
  unfold Res.flushHeaders
  split
  · assumption
  · rfl

theorem flushHeaders_keep (r : Res) :
    r.flushHeaders.ended = r.ended ∧ r.flushHeaders.endCount = r.endCount := by
  unfold Res.flushHeaders
  split
  · exact ⟨rfl, rfl⟩
  · exact ⟨rfl, rfl⟩

theorem write_keep (r : Res) (c : String) :
    (r.write c).ended = r.ended ∧ (r.write c).endCount = r.endCount := by
  unfold Res.write
  split
  · exact ⟨rfl, rfl⟩
  · exact ⟨(flushHeaders_keep r).1, (flushHeaders_keep r).2⟩

theorem write_sent_fields (r : Res) (c : String) (hs : r.headersSent = true) :
    (r.write c).headersSent = true ∧ (r.write c).sentStatus = r.sentStatus ∧
    (r.write c).sentHeaders = r.sentHeaders := by
  unfold Res.write
  split
  · exact ⟨hs, rfl, rfl⟩
  · rw [flushHeaders_of_sent r hs]
    exact ⟨hs, rfl, rfl⟩

theorem endRes_sent_fields (r : Res) (hs : r.headersSent = true) :
    r.endRes.headersSent = true ∧ r.endRes.sentStatus = r.sentStatus ∧
    r.endRes.sentHeaders = r.sentHeaders := by
  unfold Res.endRes
  split
  · exact ⟨hs, rfl, rfl⟩
  · rw [flushHeaders_of_sent r hs]
    exact ⟨hs, rfl, rfl⟩

theorem send_sent_fields (r : Res) (t : String) (hs : r.headersSent = true) :
    (r.send t).headersSent = true ∧ (r.send t).sentStatus = r.sentStatus ∧
    (r.send t).sentHeaders = r.sentHeaders := by
  unfold Res.send
  split
  · exact ⟨hs, rfl, rfl⟩
  · obtain ⟨w1, w2, w3⟩ := write_sent_fields r t hs
    obtain ⟨e1, e2, e3⟩ := endRes_sent_fields (r.write t) w1
    exact ⟨e1, e2.trans w2, e3.trans w3⟩

theorem stepRes_sent_stable (rr : RuntimeRes) (r : Res) (ev : ResEvent)
    (hs : r.headersSent = true) :
    (stepRes rr r ev).headersSent = true ∧
    (stepRes rr r ev).sentStatus = r.sentStatus ∧
    (stepRes rr r ev).sentHeaders = r.sentHeaders := by
  obtain ⟨f1, f2, f3, _, _⟩ := forward_fields rr r
  cases ev with
  | data c =>
    obtain ⟨w1, w2, w3⟩ := write_sent_fields (forwardStatusAndHeaders rr r) c (f1.trans hs)
    exact ⟨w1, w2.trans f2, w3.trans f3⟩
  | close =>
    obtain ⟨e1, e2, e3⟩ := endRes_sent_fields (forwardStatusAndHeaders rr r) (f1.trans hs)
    exact ⟨e1, e2.trans f2, e3.trans f3⟩
  | endEv =>
    obtain ⟨e1, e2, e3⟩ := endRes_sent_fields (forwardStatusAndHeaders rr r) (f1.trans hs)
    exact ⟨e1, e2.trans f2, e3.trans f3⟩
  | reqError => exact endRes_sent_fields r hs
  | pipeError => exact endRes_sent_fields r hs
  | fatal t => exact send_sent_fields r t hs

theorem endRes_inv (r : Res) (h : ResInv r) : ResInv r.endRes := by
  obtain ⟨h1, h2, h3⟩ := h
  unfold Res.endRes
  by_cases he : r.ended = true
  · rw [if_pos he]
    exact ⟨h1, h2, h3⟩
  · rw [if_neg he]
    have he2 : r.ended = false := by
      cases hv : r.ended
      · rfl
      · exact absurd hv he
    dsimp only
    refine ⟨?_, fun _ => flushHeaders_headersSent r, ?_⟩
    · rw [(flushHeaders_keep r).2, h1, he2]
      simp
    · rw [flushHeaders_headersSent r]
      unfold Res.flushHeaders
      split
      · simp only [true_iff]
        exact h3.mp (by assumption)
      · simp

theorem write_inv (r : Res) (c : String) (h : ResInv r) : ResInv (r.write c) := by
  obtain ⟨h1, h2, h3⟩ := h
  unfold Res.write
  by_cases he : r.ended = true
  · rw [if_pos he]
    exact ⟨h1, h2, h3⟩
  · rw [if_neg he]
    dsimp only
    refine ⟨?_, ?_, ?_⟩
    · rw [(flushHeaders_keep r).2, (flushHeaders_keep r).1]
      exact h1
    · intro hcontra
      exact flushHeaders_headersSent r
    · rw [flushHeaders_headersSent r]
      unfold Res.flushHeaders
      split
      · simp only [true_iff]
        exact h3.mp (by assumption)
      · simp

theorem send_inv (r : Res) (t : String) (h : ResInv r) : ResInv (r.send t) := by
  unfold Res.send
  split
  · exact h
  · exact endRes_inv _ (write_inv r t h)

theorem stepRes_inv (rr : RuntimeRes) (r : Res) (ev : ResEvent) (h : ResInv r) :
    ResInv (stepRes rr r ev) := by
  have hf : ResInv (forwardStatusAndHeaders rr r) := by
    obtain ⟨f1, f2, _, f4, f5⟩ := forward_fields rr r
    obtain ⟨h1, h2, h3⟩ := h
    refine ⟨?_, ?_, ?_⟩
    · rw [f5, f4]; exact h1
    · rw [f4, f1]; exact h2
    · rw [f1, f2]; exact h3
  cases ev with
  | data c => exact write_inv _ c hf
  | close => exact endRes_inv _ hf
  | endEv => exact endRes_inv _ hf
  | reqError => exact endRes_inv r h
  | pipeError => exact endRes_inv r h
  | fatal t => exact send_inv r t h

theorem runRes_inv (rr : RuntimeRes) (evs : List ResEvent) (r : Res) (h : ResInv r) :
    ResInv (runRes rr r evs) := by
  induction evs generalizing r with
  | nil => exact h
  | cons ev rest ih => exact ih _ (stepRes_inv rr r ev h)

theorem endRes_ended (r : Res) : r.endRes.ended = true := by
  unfold Res.endRes
  split
  · assumption
  · rfl

theorem stepRes_ended_mono (rr : RuntimeRes) (r : Res) (ev : ResEvent)
    (he : r.ended = true) : (stepRes rr r ev).ended = true := by
  have hf := (forward_fields rr r).2.2.2.1
  cases ev with
  | data c =>
    show ((forwardStatusAndHeaders rr r).write c).ended = true
    rw [(write_keep (forwardStatusAndHeaders rr r) c).1, hf]
    exact he
  | close => exact endRes_ended _
  | endEv => exact endRes_ended _
  | reqError => exact endRes_ended _
  | pipeError => exact endRes_ended _
  | fatal t =>
    show (r.send t).ended = true
    unfold Res.send
    rw [if_pos he]
    exact he

theorem stepRes_ending (rr : RuntimeRes) (r : Res) (ev : ResEvent)
    (hev : endingEvent ev = true) : (stepRes rr r ev).ended = true := by
  cases ev with
  | data c => exact absurd hev (by simp [endingEvent])
  | close => exact endRes_ended _
  | endEv => exact endRes_ended _
  | reqError => exact endRes_ended _
  | pipeError => exact endRes_ended _
  | fatal t =>
    show (r.send t).ended = true
    unfold Res.send
    split
    all_goals first
      | assumption
      | exact endRes_ended _

theorem runRes_ended_mono (rr : RuntimeRes) (evs : List ResEvent) (r : Res)
    (he : r.ended = true) : (runRes rr r evs).ended = true := by
  induction evs generalizing r with
  | nil => exact he
  | cons ev rest ih => exact ih _ (stepRes_ended_mono rr r ev he)

theorem advance_spawns (name : String) (s : HState) :
    (advance name s).spawns = s.spawns := by
  unfold advance
  repeat' split
  all_goals rfl

theorem hstep_spawns (name : String) (s : HState) (ev : WEvent) :
    (hstep name s ev).spawns = s.spawns := by
  cases ev with
  | log el =>
    show (advance name _).spawns = s.spawns
    rw [advance_spawns]
    repeat' split
    all_goals rfl
  | exit c =>
    show (advance name _).spawns = s.spawns
    rw [advance_spawns]

theorem hrun_spawns (name : String) (tr : List WEvent) (s : HState) :
    (tr.foldl (hstep name) s).spawns = s.spawns := by
  induction tr generalizing s with
  | nil => rfl
  | cons ev rest ih => exact (ih _).trans (hstep_spawns name s ev)

theorem handlerRun_spawns_le_one (jsonParse : String → Option String)
    (name rawBody : String) (tr : List WEvent) :
    (handlerRun jsonParse name rawBody tr).spawns ≤ 1 := by
  unfold handlerRun
  split
  · exact Nat.zero_le 1
  · exact Nat.le_of_eq (hrun_spawns name tr {})

/-- C1: for an HTTP-trigger invocation, the outbound response is ended
exactly once when any ending event (worker-response `end` or `close`, a
transport error, or a FATAL log send) occurs; the end attempts are
idempotent (`endCount` never exceeds 1 over any event sequence); once the
headers are flushed, no later event changes the wire status or headers, so
status and headers are forwarded only on the first of the worker-response
events; and the handler spawns at most one worker per request. -/
theorem http_response_ended_exactly_once (rr : RuntimeRes) (evs : List ResEvent)
    (h : ∃ e ∈ evs, endingEvent e = true) :
    (runRes rr {} evs).ended = true ∧ (runRes rr {} evs).endCount = 1 ∧
    (∀ evs2 : List ResEvent, (runRes rr {} evs2).endCount ≤ 1) ∧
    (∀ (r : Res) (ev : ResEvent), r.headersSent = true →
      (stepRes rr r ev).headersSent = true ∧
      (stepRes rr r ev).sentStatus = r.sentStatus ∧
      (stepRes rr r ev).sentHeaders = r.sentHeaders) ∧
    (∀ (jsonParse : String → Option String) (name rawBody : String) (tr : List WEvent),
      (handlerRun jsonParse name rawBody tr).spawns ≤ 1) := by
  have hinv : ∀ evs2 : List ResEvent, ResInv (runRes rr {} evs2) :=
    fun evs2 => runRes_inv rr evs2 {} resInv_init
  have hended : (runRes rr {} evs).ended = true := by
    obtain ⟨ev, hmem, hev⟩ := h
    obtain ⟨l1, l2, rfl⟩ := List.append_of_mem hmem
    rw [runRes, List.foldl_append, List.foldl_cons]
    exact runRes_ended_mono rr l2 _ (stepRes_ending rr _ ev hev)
  refine ⟨hended, ?_, ?_, ?_, ?_⟩
  · have := (hinv evs).1
    rw [hended] at this
    simpa using this
  · intro evs2
    have := (hinv evs2).1
    rw [this]
    split
    · exact Nat.le_refl 1
    · exact Nat.zero_le 1
  · intro r ev hs
    exact stepRes_sent_stable rr r ev hs
  · exact handlerRun_spawns_le_one

/-- Witness for C1 at a concrete worker response and event sequence. -/
theorem http_response_ended_exactly_once_witness :
    (runRes ⟨some 200, [("content-type", "text/plain")]⟩ {}
        [ResEvent.data "hello", ResEvent.endEv, ResEvent.close]).ended = true ∧
    (runRes ⟨some 200, [("content-type", "text/plain")]⟩ {}
        [ResEvent.data "hello", ResEvent.endEv, ResEvent.close]).endCount = 1 := by
  have h := http_response_ended_exactly_once ⟨some 200, [("content-type", "text/plain")]⟩
    [ResEvent.data "hello", ResEvent.endEv, ResEvent.close]
    ⟨ResEvent.endEv, by decide, by decide⟩
  exact ⟨h.1, h.2.1⟩

theorem find?_first_match (p : EmulatorLog → Bool) (l : List EmulatorLog)
    (r : EmulatorLog) (h : l.find? p = some r) :
    p r = true ∧ ∃ l1 l2, l = l1 ++ r :: l2 ∧ ∀ x ∈ l1, p x = false := by
  induction l with
  | nil => simp at h
  | cons a rest ih =>
    by_cases ha : p a = true
    · rw [List.find?_cons_of_pos _ ha] at h
      cases h
      exact ⟨ha, [], rest, rfl, by simp⟩
    · rw [List.find?_cons_of_neg _ ha] at h
      obtain ⟨hr, l1, l2, heq, hall⟩ := ih h
      subst heq
      refine ⟨hr, a :: l1, l2, rfl, ?_⟩
      intro x hx
      rcases List.mem_cons.mp hx with rfl | hx2
      · exact Bool.not_eq_true _ ▸ ha
      · exact hall x hx2

/-- C6 amended: `waitForLog` resolves with the first emitted record whose
level and type match and whose predicate holds; and over any finite trace it
never rejects — the source installs no exit subscription and never calls
`reject`, so when no matching record arrives the waiter stays pending
forever instead of failing with `NoMatchingLog`. -/
theorem waitForLog_resolves_first_match (trace : List EmulatorLog)
    (level type : String) (filt : EmulatorLog → Bool) (r : EmulatorLog)
    (h : waitForLogPromise trace level type filt = .resolved r) :
    (logMatches level type filt r = true ∧
      ∃ l1 l2, trace = l1 ++ r :: l2 ∧ ∀ x ∈ l1, logMatches level type filt x = false) ∧
    (∀ (tr2 : List EmulatorLog) (e : String),
      waitForLogPromise tr2 level type filt ≠ .rejected e) := by
  constructor
  · have hf : trace.find? (logMatches level type filt) = some r := by
      unfold waitForLogPromise at h
      split at h
      · rename_i el hm
        cases h
        exact hm
      · simp at h
    exact find?_first_match _ _ _ hf
  · intro tr2 e
    unfold waitForLogPromise
    split <;> simp

/-- Witness for C6 at a concrete trace: the waiter resolves with the first
triggers-parsed record, skipping the non-matching INFO record. -/
theorem waitForLog_resolves_first_match_witness :
    (logMatches "SYSTEM" "triggers-parsed" (fun _ => true)
        ⟨"SYSTEM", "triggers-parsed", "", {}⟩ = true ∧
      ∃ l1 l2,
        [⟨"INFO", "user-log", "hi", {}⟩, ⟨"SYSTEM", "triggers-parsed", "", {}⟩] =
          l1 ++ (⟨"SYSTEM", "triggers-parsed", "", {}⟩ : EmulatorLog) :: l2 ∧
        ∀ x ∈ l1, logMatches "SYSTEM" "triggers-parsed" (fun _ => true) x = false) ∧
    (∀ (tr2 : List EmulatorLog) (e : String),
      waitForLogPromise tr2 "SYSTEM" "triggers-parsed" (fun _ => true) ≠ .rejected e) :=
  waitForLog_resolves_first_match
    [⟨"INFO", "user-log", "hi", {}⟩, ⟨"SYSTEM", "triggers-parsed", "", {}⟩]
    "SYSTEM" "triggers-parsed" (fun _ => true)
    ⟨"SYSTEM", "triggers-parsed", "", {}⟩ (by decide)

/-- C6 counterexample: over the trace of a worker that emitted a single INFO
record and then exited, the triggers-parsed waiter is still pending; it has
not resolved with a `NoMatchingLog` failure — contrary to the claim, no
failure completion exists. -/
theorem waitForLog_no_match_stays_pending :
    waitForLogPromise [⟨"INFO", "user-log", "hi", {}⟩] "SYSTEM" "triggers-parsed"
      (fun _ => true) = .pending ∧
    (PromiseState.pending : PromiseState String EmulatorLog) ≠
      .rejected "NoMatchingLog" := by
  exact ⟨by decide, by simp⟩

theorem advance_not_started (name : String) (s : HState)
    (h : startupDone s = false) : advance name s = s := by
  unfold advance
  rw [if_neg]
  intro hc
  exact absurd hc.1 (by simp [h])

theorem hstep_quiet (name : String) (s : HState) (el : EmulatorLog)
    (hf : (el.level == "FATAL") = false) (hr : isReadyRec el = false)
    (hready : s.readySeen = false) :
    (hstep name s (.log el)).readySeen = false ∧
    (hstep name s (.log el)).acked = s.acked ∧
    (hstep name s (.log el)).crash = s.crash ∧
    (hstep name s (.log el)).res = s.res := by
  simp only [hstep, hf, hr, Bool.false_eq_true, if_false]
  by_cases htp : isTpRec el ∧ s.tpData.isNone = true
  · rw [if_pos htp]
    rw [advance_not_started name _ (by simp [startupDone, hready])]
    exact ⟨hready, rfl, rfl, rfl⟩
  · rw [if_neg htp]
    rw [advance_not_started name _ (by simp [startupDone, hready])]
    exact ⟨hready, rfl, rfl, rfl⟩

theorem hstep_exit_not_started (name : String) (s : HState) (c : Int)
    (hready : s.readySeen = false) :
    hstep name s (.exit c) = { s with exited := true } := by
  show advance name { s with exited := true } = _
  exact advance_not_started name _ (by simp [startupDone, hready])

theorem hrun_no_ready (name : String) (tr : List WEvent) (s : HState)
    (hnf : noFatal tr = true) (hnr : hasReady tr = false)
    (hs1 : s.readySeen = false) :
    (tr.foldl (hstep name) s).readySeen = false ∧
    (tr.foldl (hstep name) s).acked = s.acked ∧
    (tr.foldl (hstep name) s).crash = s.crash ∧
    (tr.foldl (hstep name) s).res = s.res := by
  induction tr generalizing s with
  | nil => exact ⟨hs1, rfl, rfl, rfl⟩
  | cons ev rest ih =>
    cases ev with
    | log el =>
      have hnf2 : noFatal rest = true ∧ (el.level == "FATAL") = false := by
        unfold noFatal at hnf ⊢
        rw [traceLogs] at hnf
        simp only [List.all_cons, Bool.and_eq_true] at hnf
        refine ⟨hnf.2, ?_⟩
        have := hnf.1
        simp only [bne_iff_ne, ne_eq] at this
        exact beq_eq_false_iff_ne.mpr this
      have hnr2 : hasReady rest = false ∧ isReadyRec el = false := by
        unfold hasReady at hnr ⊢
        rw [traceLogs] at hnr
        simp only [List.any_cons, Bool.or_eq_false_iff] at hnr
        exact ⟨hnr.2, hnr.1⟩
      obtain ⟨q1, q2, q3, q4⟩ := hstep_quiet name s el hnf2.2 hnr2.2 hs1
      rw [List.foldl_cons]
      obtain ⟨i1, i2, i3, i4⟩ := ih (hstep name s (.log el)) hnf2.1 hnr2.1 q1
      exact ⟨i1, i2.trans q2, i3.trans q3, i4.trans q4⟩
    | exit c =>
      have hnf2 : noFatal rest = true := by
        unfold noFatal at hnf ⊢
        rwa [traceLogs] at hnf
      have hnr2 : hasReady rest = false := by
        unfold hasReady at hnr ⊢
        rwa [traceLogs] at hnr
      rw [List.foldl_cons, hstep_exit_not_started name s c hs1]
      exact ih _ hnf2 hnr2 hs1

/-- C5 amended: the `ready` promise has no failure path — `waitForLog` never
rejects and no exit subscription exists — so when the worker exits before
emitting the ready record the promise stays pending forever; the handler
awaiting it never resumes, and no response (in particular no 5xx) is
written. -/
theorem worker_exit_before_ready_leaves_handler_pending
    (tr : List WEvent) (code : Option Int)
    (jsonParse : String → Option String) (name rawBody : String)
    (hnr : hasReady tr = false) (hnf : noFatal tr = true) :
    runtimeReady ⟨traceLogs tr, code⟩ = .pending ∧
    runtimeReady ⟨traceLogs tr, code⟩ ≠ .rejected "WorkerExitedBeforeReady" ∧
    (handlerRun jsonParse name rawBody tr).res.ended = false ∧
    (handlerRun jsonParse name rawBody tr).res.sentStatus = none := by
  have hfind : (traceLogs tr).find?
      (logMatches "SYSTEM" "runtime-status" (fun el => el.text == "ready")) = none := by
    rw [List.find?_eq_none]
    intro x hx hcontra
    unfold hasReady at hnr
    have : (traceLogs tr).any isReadyRec = true :=
      List.any_eq_true.mpr ⟨x, hx, hcontra⟩
    rw [hnr] at this
    cases this
  have hpending : runtimeReady ⟨traceLogs tr, code⟩ = .pending := by
    unfold runtimeReady waitForLogPromise
    rw [hfind]
  have hres : (handlerRun jsonParse name rawBody tr).res = {} := by
    unfold handlerRun
    split
    · rfl
    · exact (hrun_no_ready name tr {} hnf hnr rfl).2.2.2
  refine ⟨hpending, ?_, ?_, ?_⟩
  · rw [hpending]
    simp
  · rw [hres]
  · rw [hres]

/-- Witness for C5's amended theorem at a concrete ready-free trace. -/
theorem worker_exit_before_ready_witness :
    runtimeReady ⟨traceLogs [.log ⟨"INFO", "user-log", "hi", {}⟩, .exit 1], some 1⟩ =
      .pending ∧
    runtimeReady ⟨traceLogs [.log ⟨"INFO", "user-log", "hi", {}⟩, .exit 1], some 1⟩ ≠
      .rejected "WorkerExitedBeforeReady" ∧
    (handlerRun (fun s => some s) "echo" ""
      [.log ⟨"INFO", "user-log", "hi", {}⟩, .exit 1]).res.ended = false ∧
    (handlerRun (fun s => some s) "echo" ""
      [.log ⟨"INFO", "user-log", "hi", {}⟩, .exit 1]).res.sentStatus = none :=
  worker_exit_before_ready_leaves_handler_pending
    [.log ⟨"INFO", "user-log", "hi", {}⟩, .exit 1] (some 1)
    (fun s => some s) "echo" "" (by decide) (by decide)

/-- C5 counterexample: the worker exits with code 1 before ever emitting the
ready record.  Contrary to the claim, the `ready` promise does not complete
with a `WorkerExitedBeforeReady` failure — it is still pending — and the
handler writes no response, so no 5xx reaches the client. -/
theorem ready_pending_after_exit :
    runtimeReady ⟨[], some 1⟩ = .pending ∧
    (PromiseState.pending : PromiseState String EmulatorLog) ≠
      .rejected "WorkerExitedBeforeReady" ∧
    (handlerRun (fun s => some s) "echo" "" [.exit 1]).res.sentStatus = none ∧
    (handlerRun (fun s => some s) "echo" "" [.exit 1]).res.ended = false := by
  refine ⟨rfl, by simp, by decide, by decide⟩

theorem hasReady_cons_log (el : EmulatorLog) (tr : List WEvent) :
    hasReady (.log el :: tr) = (isReadyRec el || hasReady tr) := by
  simp [hasReady, traceLogs]

theorem hasReady_cons_exit (c : Int) (tr : List WEvent) :
    hasReady (.exit c :: tr) = hasReady tr := rfl

theorem hasTp_cons_log (el : EmulatorLog) (tr : List WEvent) :
    hasTp (.log el :: tr) = (isTpRec el || hasTp tr) := by
  simp [hasTp, traceLogs]

theorem hasTp_cons_exit (c : Int) (tr : List WEvent) :
    hasTp (.exit c :: tr) = hasTp tr := rfl

theorem hasExit_cons_log (el : EmulatorLog) (tr : List WEvent) :
    hasExit (.log el :: tr) = hasExit tr := by
  simp [hasExit]

theorem hasExit_cons_exit (c : Int) (tr : List WEvent) :
    hasExit (.exit c :: tr) = true := by
  simp [hasExit]

theorem noFatal_cons_log (el : EmulatorLog) (tr : List WEvent)
    (h : noFatal (.log el :: tr) = true) :
    (el.level == "FATAL") = false ∧ noFatal tr = true := by
  unfold noFatal at h ⊢
  rw [traceLogs] at h
  simp only [List.all_cons, Bool.and_eq_true] at h
  refine ⟨?_, h.2⟩
  have := h.1
  simp only [bne_iff_ne, ne_eq] at this
  exact beq_eq_false_iff_ne.mpr this

theorem noFatal_cons_exit (c : Int) (tr : List WEvent)
    (h : noFatal (.exit c :: tr) = true) : noFatal tr = true := by
  unfold noFatal at h ⊢
  rwa [traceLogs] at h

theorem firstTp_cons_log_pos (el : EmulatorLog) (tr : List WEvent)
    (h : isTpRec el = true) : firstTp (.log el :: tr) = some el := by
  unfold firstTp
  rw [traceLogs]
  exact List.find?_cons_of_pos _ h

theorem firstTp_cons_log_neg (el : EmulatorLog) (tr : List WEvent)
    (h : isTpRec el = false) : firstTp (.log el :: tr) = firstTp tr := by
  unfold firstTp
  rw [traceLogs]
  exact List.find?_cons_of_neg _ (by simp [h])

theorem firstTp_cons_exit (c : Int) (tr : List WEvent) :
    firstTp (.exit c :: tr) = firstTp tr := rfl

theorem hasTp_of_firstTp (tr : List WEvent) (el : EmulatorLog)
    (h : firstTp tr = some el) : hasTp tr = true := by
  unfold firstTp at h
  unfold hasTp
  exact List.any_eq_true.mpr
    ⟨el, List.mem_of_find?_eq_some h, List.find?_some h⟩

theorem hstep_good (name : String) (d : LogData) (t : TriggerDefinition)
    (hl : lookupTrigger name d = some t) (hh : t.httpsTrigger = false)
    (r p e : Bool) (el : EmulatorLog)
    (hf : (el.level == "FATAL") = false)
    (hth : isTpRec el = true → p = true ∨ el.data = d) :
    hstep name (goodState d r p e) (.log el) =
      goodState d (r || isReadyRec el) (p || isTpRec el) e := by
  cases hr : isReadyRec el <;> cases ht : isTpRec el <;>
    cases p <;> cases r <;> cases e <;>
      simp_all [hstep, advance, goodState, startupDone, hl, hh]

theorem hstep_good_exit (name : String) (d : LogData) (t : TriggerDefinition)
    (hl : lookupTrigger name d = some t) (hh : t.httpsTrigger = false)
    (r p e : Bool) (c : Int) :
    hstep name (goodState d r p e) (.exit c) = goodState d r p true := by
  cases p <;> cases r <;> cases e <;>
    simp_all [hstep, advance, goodState, startupDone, hl, hh]

theorem hrun_good (name : String) (d : LogData) (t : TriggerDefinition)
    (hl : lookupTrigger name d = some t) (hh : t.httpsTrigger = false)
    (tr : List WEvent) (r p e : Bool)
    (hnf : noFatal tr = true)
    (hp : p = false → ∀ el2, firstTp tr = some el2 → el2.data = d) :
    tr.foldl (hstep name) (goodState d r p e) =
      goodState d (r || hasReady tr) (p || hasTp tr) (e || hasExit tr) := by
  induction tr generalizing r p e with
  | nil => simp [hasReady, hasTp, hasExit, traceLogs]
  | cons ev rest ih =>
    cases ev with
    | log el =>
      obtain ⟨hf, hnf2⟩ := noFatal_cons_log el rest hnf
      have hth : isTpRec el = true → p = true ∨ el.data = d := by
        intro ht
        cases hpv : p
        · exact Or.inr (hp hpv el (firstTp_cons_log_pos el rest ht))
        · exact Or.inl rfl
      rw [List.foldl_cons, hstep_good name d t hl hh r p e el hf hth]
      rw [ih (r || isReadyRec el) (p || isTpRec el) e hnf2 ?hp2]
      case hp2 =>
        intro hpf el2 hel2
        have hpv : p = false := by
          cases hv : p
          · rfl
          · rw [hv] at hpf; simp at hpf
        have htv : isTpRec el = false := by
          cases hv : isTpRec el
          · rfl
          · rw [hpv, hv] at hpf; simp at hpf
        exact hp hpv el2 ((firstTp_cons_log_neg el rest htv) ▸ hel2)
      rw [hasReady_cons_log, hasTp_cons_log, hasExit_cons_log]
      congr 1 <;> simp [Bool.or_assoc, Bool.or_comm, Bool.or_left_comm]
    | exit c =>
      have hnf2 := noFatal_cons_exit c rest hnf
      rw [List.foldl_cons, hstep_good_exit name d t hl hh r p e c]
      rw [ih r p true hnf2 (by
        intro hpf el2 hel2
        exact hp hpf el2 ((firstTp_cons_exit c rest) ▸ hel2))]
      rw [hasReady_cons_exit, hasTp_cons_exit, hasExit_cons_exit]
      simp

/-- C2 amended: for an invocation of a non-HTTP trigger present in the first
triggers-parsed map, provided the worker emits no FATAL record, the handler
replies with status 200 and body `ackBody` exactly when the worker exits —
regardless of the exit code — and sends no reply when the worker never
exits.  (With a FATAL record the claim fails: the FATAL subscriber replies
first, see the counterexample.) -/
theorem event_trigger_ack_iff_exit
    (jsonParse : String → Option String) (name rawBody : String) (tr : List WEvent)
    (el0 : EmulatorLog) (t : TriggerDefinition)
    (hb : rawBody = "" ∨ (jsonParse rawBody).isSome)
    (hnf : noFatal tr = true)
    (htp : firstTp tr = some el0)
    (hl : lookupTrigger name el0.data = some t)
    (hh : t.httpsTrigger = false)
    (hr : hasReady tr = true) :
    (hasExit tr = true →
      (handlerRun jsonParse name rawBody tr).acked = true ∧
      (handlerRun jsonParse name rawBody tr).res.ended = true ∧
      (handlerRun jsonParse name rawBody tr).res.sentStatus = some 200 ∧
      (handlerRun jsonParse name rawBody tr).res.body = [ackBody]) ∧
    (hasExit tr = false →
      (handlerRun jsonParse name rawBody tr).acked = false ∧
      (handlerRun jsonParse name rawBody tr).res.ended = false ∧
      (handlerRun jsonParse name rawBody tr).res.sentStatus = none) := by
  have hfold : tr.foldl (hstep name) ({} : HState) =
      goodState el0.data (false || hasReady tr) (false || hasTp tr)
        (false || hasExit tr) := by
    have hdef : ({} : HState) = goodState el0.data false false false := by rfl
    rw [hdef]
    exact hrun_good name el0.data t hl hh tr false false false hnf
      (fun _ el2 hel2 => by
        rw [htp] at hel2
        cases hel2
        rfl)
  have hnotcrash : ¬(rawBody ≠ "" ∧ (jsonParse rawBody).isNone = true) := by
    rcases hb with hb | hb
    · exact fun hc => hc.1 hb
    · intro hc
      rw [Option.isNone_iff_eq_none] at hc
      rw [hc.2] at hb
      simp at hb
  have hrun_eq : handlerRun jsonParse name rawBody tr =
      { proto := if rawBody = "" then none else jsonParse rawBody,
        spawns := (tr.foldl (hstep name) ({} : HState)).spawns,
        crash := (tr.foldl (hstep name) ({} : HState)).crash,
        acked := (tr.foldl (hstep name) ({} : HState)).acked,
        res := (tr.foldl (hstep name) ({} : HState)).res } := by
    unfold handlerRun
    rw [if_neg hnotcrash]
  rw [hrun_eq]
  dsimp only
  rw [hfold, hr, hasTp_of_firstTp tr el0 htp]
  have hj1 : (Res.json {} ackBody).ended = true := by decide
  have hj2 : (Res.json {} ackBody).sentStatus = some 200 := by decide
  have hj3 : (Res.json {} ackBody).body = [ackBody] := by decide
  constructor
  · intro hex
    rw [hex]
    refine ⟨?_, ?_, ?_, ?_⟩ <;> simp [goodState, hj1, hj2, hj3]
  · intro hex
    rw [hex]
    refine ⟨?_, ?_, ?_⟩ <;> simp [goodState]

/-- Witness for C2's amended theorem: scenario S2, worker exits 0 after the
ready and triggers-parsed records for event trigger onWrite. -/
theorem event_trigger_ack_iff_exit_witness :
    (handlerRun (fun s => some s) "onWrite" "\x7b\"path\":\"/a\"\x7d"
      [.log ⟨"SYSTEM", "runtime-status", "ready", { socketPath := some "/tmp/w1.sock" }⟩,
       .log ⟨"SYSTEM", "triggers-parsed", "",
         { triggers := [("onWrite",
            ⟨"onWrite", false, "firestore.googleapis.com", "us-central1"⟩)] }⟩,
       .exit 0]).acked = true ∧
    (handlerRun (fun s => some s) "onWrite" "\x7b\"path\":\"/a\"\x7d"
      [.log ⟨"SYSTEM", "runtime-status", "ready", { socketPath := some "/tmp/w1.sock" }⟩,
       .log ⟨"SYSTEM", "triggers-parsed", "",
         { triggers := [("onWrite",
            ⟨"onWrite", false, "firestore.googleapis.com", "us-central1"⟩)] }⟩,
       .exit 0]).res.sentStatus = some 200 ∧
    (handlerRun (fun s => some s) "onWrite" "\x7b\"path\":\"/a\"\x7d"
      [.log ⟨"SYSTEM", "runtime-status", "ready", { socketPath := some "/tmp/w1.sock" }⟩,
       .log ⟨"SYSTEM", "triggers-parsed", "",
         { triggers := [("onWrite",
            ⟨"onWrite", false, "firestore.googleapis.com", "us-central1"⟩)] }⟩,
       .exit 0]).res.body = [ackBody] := by
  have h := event_trigger_ack_iff_exit (fun s => some s) "onWrite"
    "\x7b\"path\":\"/a\"\x7d"
    [.log ⟨"SYSTEM", "runtime-status", "ready", { socketPath := some "/tmp/w1.sock" }⟩,
     .log ⟨"SYSTEM", "triggers-parsed", "",
       { triggers := [("onWrite",
          ⟨"onWrite", false, "firestore.googleapis.com", "us-central1"⟩)] }⟩,
     .exit 0]
    ⟨"SYSTEM", "triggers-parsed", "",
      { triggers := [("onWrite",
         ⟨"onWrite", false, "firestore.googleapis.com", "us-central1"⟩)] }⟩
    ⟨"onWrite", false, "firestore.googleapis.com", "us-central1"⟩
    (Or.inr (by decide)) (by decide) (by decide) (by decide) (by decide) (by decide)
  obtain ⟨h1, h2, h3, h4⟩ := h.1 (by decide)
  exact ⟨h1, h3, h4⟩

/-- C2 counterexample: the worker of event trigger onWrite — present in the
triggers-parsed map and non-HTTP — emits FATAL "boom" and then exits with
code 0.  The FATAL subscriber replies immediately, so the wire body is
"boom" rather than the acknowledgement, and the response is already ended on
the FATAL-only prefix, before any exit. -/
theorem event_trigger_fatal_replies_before_exit :
    lookupTrigger "onWrite"
      { triggers := [("onWrite",
         ⟨"onWrite", false, "firestore.googleapis.com", "us-central1"⟩)] } =
      some ⟨"onWrite", false, "firestore.googleapis.com", "us-central1"⟩ ∧
    hasExit
      [.log ⟨"FATAL", "runtime-error", "boom", {}⟩,
       .log ⟨"SYSTEM", "runtime-status", "ready", { socketPath := some "/tmp/w1.sock" }⟩,
       .log ⟨"SYSTEM", "triggers-parsed", "",
         { triggers := [("onWrite",
            ⟨"onWrite", false, "firestore.googleapis.com", "us-central1"⟩)] }⟩,
       .exit 0] = true ∧
    (handlerRun (fun s => some s) "onWrite" ""
      [.log ⟨"FATAL", "runtime-error", "boom", {}⟩,
       .log ⟨"SYSTEM", "runtime-status", "ready", { socketPath := some "/tmp/w1.sock" }⟩,
       .log ⟨"SYSTEM", "triggers-parsed", "",
         { triggers := [("onWrite",
            ⟨"onWrite", false, "firestore.googleapis.com", "us-central1"⟩)] }⟩,
       .exit 0]).res.body = ["boom"] ∧
    (handlerRun (fun s => some s) "onWrite" ""
      [.log ⟨"FATAL", "runtime-error", "boom", {}⟩,
       .log ⟨"SYSTEM", "runtime-status", "ready", { socketPath := some "/tmp/w1.sock" }⟩,
       .log ⟨"SYSTEM", "triggers-parsed", "",
         { triggers := [("onWrite",
            ⟨"onWrite", false, "firestore.googleapis.com", "us-central1"⟩)] }⟩,
       .exit 0]).res.body ≠ [ackBody] ∧
    (handlerRun (fun s => some s) "onWrite" ""
      [.log ⟨"FATAL", "runtime-error", "boom", {}⟩]).res.ended = true ∧
    hasExit [.log ⟨"FATAL", "runtime-error", "boom", {}⟩] = false := by
  refine ⟨by decide, by decide, by decide, by decide, by decide, by decide⟩

theorem hstep_bad (name : String) (d : LogData)
    (hl : lookupTrigger name d = none)
    (r p e : Bool) (el : EmulatorLog)
    (hf : (el.level == "FATAL") = false)
    (hth : isTpRec el = true → p = true ∨ el.data = d) :
    hstep name (badState d r p e) (.log el) =
      badState d (r || isReadyRec el) (p || isTpRec el) e := by
  cases hr : isReadyRec el <;> cases ht : isTpRec el <;>
    cases p <;> cases r <;> cases e <;>
      simp_all [hstep, advance, badState, startupDone, hl]

theorem hstep_bad_exit (name : String) (d : LogData)
    (r p e : Bool) (c : Int) :
    hstep name (badState d r p e) (.exit c) = badState d r p true := by
  cases p <;> cases r <;> cases e <;>
    simp_all [hstep, advance, badState, startupDone]

theorem hrun_bad (name : String) (d : LogData)
    (hl : lookupTrigger name d = none)
    (tr : List WEvent) (r p e : Bool)
    (hnf : noFatal tr = true)
    (hp : p = false → ∀ el2, firstTp tr = some el2 → el2.data = d) :
    tr.foldl (hstep name) (badState d r p e) =
      badState d (r || hasReady tr) (p || hasTp tr) (e || hasExit tr) := by
  induction tr generalizing r p e with
  | nil => simp [hasReady, hasTp, hasExit, traceLogs]
  | cons ev rest ih =>
    cases ev with
    | log el =>
      obtain ⟨hf, hnf2⟩ := noFatal_cons_log el rest hnf
      have hth : isTpRec el = true → p = true ∨ el.data = d := by
        intro ht
        cases hpv : p
        · exact Or.inr (hp hpv el (firstTp_cons_log_pos el rest ht))
        · exact Or.inl rfl
      rw [List.foldl_cons, hstep_bad name d hl r p e el hf hth]
      rw [ih (r || isReadyRec el) (p || isTpRec el) e hnf2 ?hp2]
      case hp2 =>
        intro hpf el2 hel2
        have hpv : p = false := by
          cases hv : p
          · rfl
          · rw [hv] at hpf; simp at hpf
        have htv : isTpRec el = false := by
          cases hv : isTpRec el
          · rfl
          · rw [hpv, hv] at hpf; simp at hpf
        exact hp hpv el2 ((firstTp_cons_log_neg el rest htv) ▸ hel2)
      rw [hasReady_cons_log, hasTp_cons_log, hasExit_cons_log]
      congr 1 <;> simp [Bool.or_assoc, Bool.or_comm, Bool.or_left_comm]
    | exit c =>
      have hnf2 := noFatal_cons_exit c rest hnf
      rw [List.foldl_cons, hstep_bad_exit name d r p e c]
      rw [ih r p true hnf2 (by
        intro hpf el2 hel2
        exact hp hpf el2 ((firstTp_cons_exit c rest) ▸ hel2))]
      rw [hasReady_cons_exit, hasTp_cons_exit, hasExit_cons_exit]
      simp

/-- C3 amended: when the requested trigger name is absent from the first
triggers-parsed map, the handler throws a TypeError reading `.definition`
of `undefined` (no UnknownTrigger error exists in the source); the async
handler's rejection is not observed by express 4, so the handler writes no
response at all — the client receives no 5xx from this code. -/
theorem unknown_trigger_crashes_without_response
    (jsonParse : String → Option String) (name rawBody : String) (tr : List WEvent)
    (el0 : EmulatorLog)
    (hb : rawBody = "" ∨ (jsonParse rawBody).isSome)
    (hnf : noFatal tr = true)
    (htp : firstTp tr = some el0)
    (hl : lookupTrigger name el0.data = none)
    (hr : hasReady tr = true) :
    (handlerRun jsonParse name rawBody tr).crash = some .typeErrorUndefinedTrigger ∧
    (handlerRun jsonParse name rawBody tr).res.ended = false ∧
    (handlerRun jsonParse name rawBody tr).res.sentStatus = none ∧
    (handlerRun jsonParse name rawBody tr).res.body = [] := by
  have hfold : tr.foldl (hstep name) ({} : HState) =
      badState el0.data (false || hasReady tr) (false || hasTp tr)
        (false || hasExit tr) := by
    have hdef : ({} : HState) = badState el0.data false false false := by rfl
    rw [hdef]
    exact hrun_bad name el0.data hl tr false false false hnf
      (fun _ el2 hel2 => by
        rw [htp] at hel2
        cases hel2
        rfl)
  have hnotcrash : ¬(rawBody ≠ "" ∧ (jsonParse rawBody).isNone = true) := by
    rcases hb with hb | hb
    · exact fun hc => hc.1 hb
    · intro hc
      rw [Option.isNone_iff_eq_none] at hc
      rw [hc.2] at hb
      simp at hb
  have hrun_eq : handlerRun jsonParse name rawBody tr =
      { proto := if rawBody = "" then none else jsonParse rawBody,
        spawns := (tr.foldl (hstep name) ({} : HState)).spawns,
        crash := (tr.foldl (hstep name) ({} : HState)).crash,
        acked := (tr.foldl (hstep name) ({} : HState)).acked,
        res := (tr.foldl (hstep name) ({} : HState)).res } := by
    unfold handlerRun
    rw [if_neg hnotcrash]
  rw [hrun_eq]
  dsimp only
  rw [hfold, hr, hasTp_of_firstTp tr el0 htp]
  refine ⟨?_, ?_, ?_, ?_⟩ <;> simp [badState]

/-- Witness for C3's amended theorem: scenario S6, a request for ghost while
the map only contains echo. -/
theorem unknown_trigger_crashes_without_response_witness :
    (handlerRun (fun s => some s) "ghost" ""
      [.log ⟨"SYSTEM", "runtime-status", "ready", { socketPath := some "/tmp/w1.sock" }⟩,
       .log ⟨"SYSTEM", "triggers-parsed", "",
         { triggers := [("echo", ⟨"echo", true, "", "us-central1"⟩)] }⟩,
       .exit 0]).crash = some .typeErrorUndefinedTrigger ∧
    (handlerRun (fun s => some s) "ghost" ""
      [.log ⟨"SYSTEM", "runtime-status", "ready", { socketPath := some "/tmp/w1.sock" }⟩,
       .log ⟨"SYSTEM", "triggers-parsed", "",
         { triggers := [("echo", ⟨"echo", true, "", "us-central1"⟩)] }⟩,
       .exit 0]).res.sentStatus = none := by
  have h := unknown_trigger_crashes_without_response (fun s => some s) "ghost" ""
    [.log ⟨"SYSTEM", "runtime-status", "ready", { socketPath := some "/tmp/w1.sock" }⟩,
     .log ⟨"SYSTEM", "triggers-parsed", "",
       { triggers := [("echo", ⟨"echo", true, "", "us-central1"⟩)] }⟩,
     .exit 0]
    ⟨"SYSTEM", "triggers-parsed", "",
      { triggers := [("echo", ⟨"echo", true, "", "us-central1"⟩)] }⟩
    (Or.inl rfl) (by decide) (by decide) (by decide) (by decide)
  exact ⟨h.1, h.2.2.1⟩

/-- C3 counterexample: the trigger table carries only echo and the client
requests ghost.  The invocation does not produce any 5xx: the handler
crashes with a TypeError and the response is never started, let alone given
a 500-class status. -/
theorem unknown_trigger_no_5xx :
    (handlerRun (fun s => some s) "ghost" ""
      [.log ⟨"SYSTEM", "runtime-status", "ready", { socketPath := some "/tmp/w1.sock" }⟩,
       .log ⟨"SYSTEM", "triggers-parsed", "",
         { triggers := [("echo", ⟨"echo", true, "", "us-central1"⟩)] }⟩,
       .exit 0]).res.sentStatus = none ∧
    (handlerRun (fun s => some s) "ghost" ""
      [.log ⟨"SYSTEM", "runtime-status", "ready", { socketPath := some "/tmp/w1.sock" }⟩,
       .log ⟨"SYSTEM", "triggers-parsed", "",
         { triggers := [("echo", ⟨"echo", true, "", "us-central1"⟩)] }⟩,
       .exit 0]).res.ended = false ∧
    (handlerRun (fun s => some s) "ghost" ""
      [.log ⟨"SYSTEM", "runtime-status", "ready", { socketPath := some "/tmp/w1.sock" }⟩,
       .log ⟨"SYSTEM", "triggers-parsed", "",
         { triggers := [("echo", ⟨"echo", true, "", "us-central1"⟩)] }⟩,
       .exit 0]).crash = some .typeErrorUndefinedTrigger := by
  refine ⟨by decide, by decide, by decide⟩

/-- C4 amended: a non-empty buffered body is parsed with `JSON.parse` and
becomes the proto, and an empty body yields an undefined proto; but
malformed JSON does not produce a BadPayload 4xx — `JSON.parse` throws on
line 162, the async handler's rejection is unobserved, no worker is spawned
and no response is written. -/
theorem request_body_parsing (jsonParse : String → Option String)
    (name : String) (tr : List WEvent) :
    ((handlerRun jsonParse name "" tr).proto = none ∧
      (handlerRun jsonParse name "" tr).spawns = 1) ∧
    (∀ b p2, b ≠ "" → jsonParse b = some p2 →
      (handlerRun jsonParse name b tr).proto = some p2 ∧
      (handlerRun jsonParse name b tr).spawns = 1) ∧
    (∀ b, b ≠ "" → jsonParse b = none →
      (handlerRun jsonParse name b tr).crash = some .syntaxError ∧
      (handlerRun jsonParse name b tr).spawns = 0 ∧
      (handlerRun jsonParse name b tr).res.ended = false ∧
      (handlerRun jsonParse name b tr).res.sentStatus = none) := by
  refine ⟨?_, ?_, ?_⟩
  · unfold handlerRun
    rw [if_neg (by simp)]
    dsimp only
    rw [if_pos rfl]
    exact ⟨rfl, hrun_spawns name tr {}⟩
  · intro b p2 hb hj
    unfold handlerRun
    rw [if_neg (by simp [hj])]
    dsimp only
    rw [if_neg hb, hj]
    exact ⟨rfl, hrun_spawns name tr {}⟩
  · intro b hb hj
    unfold handlerRun
    rw [if_pos ⟨hb, by simp [hj]⟩]
    exact ⟨rfl, rfl, rfl, rfl⟩

/-- Witness for C4's amended theorem at a concrete parse function failing on
the body consisting of a lone opening brace. -/
theorem request_body_parsing_witness :
    (handlerRun (fun s => if s = "\x7b" then none else some s) "echo" "" []).proto =
      none ∧
    (handlerRun (fun s => if s = "\x7b" then none else some s) "echo" "ok" []).proto =
      some "ok" ∧
    (handlerRun (fun s => if s = "\x7b" then none else some s) "echo" "\x7b" []).crash =
      some .syntaxError ∧
    (handlerRun (fun s => if s = "\x7b" then none else some s) "echo" "\x7b" []).spawns =
      0 := by
  have h := request_body_parsing (fun s => if s = "\x7b" then none else some s) "echo" []
  exact ⟨h.1.1, (h.2.1 "ok" "ok" (by decide) (by decide)).1,
    (h.2.2 "\x7b" (by decide) (by decide)).1,
    (h.2.2 "\x7b" (by decide) (by decide)).2.1⟩

/-- C4 counterexample: the request body is the malformed JSON consisting of
a lone opening brace.  Contrary to the claim the client receives no 4xx:
the handler crashes with the parse error before spawning a worker and the
response is never written. -/
theorem malformed_json_yields_no_4xx :
    (handlerRun (fun s => if s = "\x7b" then none else some s) "onWrite" "\x7b"
      []).crash = some .syntaxError ∧
    (handlerRun (fun s => if s = "\x7b" then none else some s) "onWrite" "\x7b"
      []).res.sentStatus = none ∧
    (handlerRun (fun s => if s = "\x7b" then none else some s) "onWrite" "\x7b"
      []).res.ended = false ∧
    (handlerRun (fun s => if s = "\x7b" then none else some s) "onWrite" "\x7b"
      []).spawns = 0 := by
  refine ⟨by decide, by decide, by decide, by decide⟩

/-- C8 amended: a transport error on the firestore registration PUT is
logged WARN and rejects the registration promise; because `loadTriggers`
awaits it, the rejection aborts the surrounding reload at that trigger — the
failing trigger and every remaining trigger of the same reload stay
unprocessed and outside the known-trigger set. -/
theorem sibling_put_error_aborts_reload (env : SiblingEnv) (port fsPort : Nat)
    (projectId : String) (st : LoadState) (d : TriggerDefinition)
    (rest : List TriggerDefinition) (e : String)
    (hhttp : d.httpsTrigger = false) (hsvc : d.service = SERVICE_FIRESTORE)
    (hport : env.firestorePort = some fsPort)
    (hput : env.putResult d.name = Except.error e) :
    (runSetup env port projectId st (d :: rest)).2 = false ∧
    (runSetup env port projectId st (d :: rest)).1.knownTriggerIDs =
      st.knownTriggerIDs ∧
    (runSetup env port projectId st (d :: rest)).1.triggers = st.triggers ∧
    (⟨"WARN", "Error adding trigger: " ++ e⟩ : LoadLogEntry) ∈
      (runSetup env port projectId st (d :: rest)).1.logs := by
  have hadd : addFirestoreTrigger env d =
      ([⟨"BULLET", "Setting up Cloud Firestore trigger \"" ++ d.name ++ "\""⟩,
        ⟨"WARN", "Error adding trigger: " ++ e⟩], false) := by
    unfold addFirestoreTrigger
    rw [hport, hput]
    rfl
  have hproc : processTrigger env port projectId st d =
      ({ st with
          logs := st.logs ++
            [⟨"BULLET", "Setting up Cloud Firestore trigger \"" ++ d.name ++ "\""⟩,
             ⟨"WARN", "Error adding trigger: " ++ e⟩] }, false) := by
    unfold processTrigger
    rw [if_neg (by simp [hhttp]), if_pos hsvc, hadd]
  have hrun : runSetup env port projectId st (d :: rest) =
      ({ st with
          logs := st.logs ++
            [⟨"BULLET", "Setting up Cloud Firestore trigger \"" ++ d.name ++ "\""⟩,
             ⟨"WARN", "Error adding trigger: " ++ e⟩] }, false) := by
    unfold runSetup
    rw [hproc]
  rw [hrun]
  refine ⟨rfl, rfl, rfl, ?_⟩
  simp

/-- Witness for C8's amended theorem at a concrete reload of two firestore
triggers whose first registration hits a transport error. -/
theorem sibling_put_error_aborts_reload_witness :
    (runSetup
      ⟨some 8080,
       fun n => if n = "a" then Except.error "connect ECONNREFUSED" else Except.ok "ok",
       fun _ => true⟩ 5001 "demo-proj" ⟨[], [], []⟩
      [⟨"a", false, SERVICE_FIRESTORE, "us-central1"⟩,
       ⟨"b", false, SERVICE_FIRESTORE, "us-central1"⟩]).2 = false ∧
    (runSetup
      ⟨some 8080,
       fun n => if n = "a" then Except.error "connect ECONNREFUSED" else Except.ok "ok",
       fun _ => true⟩ 5001 "demo-proj" ⟨[], [], []⟩
      [⟨"a", false, SERVICE_FIRESTORE, "us-central1"⟩,
       ⟨"b", false, SERVICE_FIRESTORE, "us-central1"⟩]).1.knownTriggerIDs = [] ∧
    (⟨"WARN", "Error adding trigger: connect ECONNREFUSED"⟩ : LoadLogEntry) ∈
      (runSetup
        ⟨some 8080,
         fun n => if n = "a" then Except.error "connect ECONNREFUSED" else Except.ok "ok",
         fun _ => true⟩ 5001 "demo-proj" ⟨[], [], []⟩
        [⟨"a", false, SERVICE_FIRESTORE, "us-central1"⟩,
         ⟨"b", false, SERVICE_FIRESTORE, "us-central1"⟩]).1.logs := by
  have h := sibling_put_error_aborts_reload
    ⟨some 8080,
     fun n => if n = "a" then Except.error "connect ECONNREFUSED" else Except.ok "ok",
     fun _ => true⟩ 5001 8080 "demo-proj" ⟨[], [], []⟩
    ⟨"a", false, SERVICE_FIRESTORE, "us-central1"⟩
    [⟨"b", false, SERVICE_FIRESTORE, "us-central1"⟩]
    "connect ECONNREFUSED" rfl rfl rfl rfl
  exact ⟨h.1, h.2.1, h.2.2.2⟩

/-- C8 counterexample: reload discovering firestore triggers a and b, where
the PUT for a fails with a transport error.  Contrary to the claim, the
reload is aborted: b is never processed and neither name enters the
known-trigger set. -/
theorem sibling_put_error_skips_remaining_triggers :
    (loadTriggers
      ⟨some 8080,
       fun n => if n = "a" then Except.error "connect ECONNREFUSED" else Except.ok "ok",
       fun _ => true⟩ 5001 "demo-proj" []
      [⟨"a", false, SERVICE_FIRESTORE, "us-central1"⟩,
       ⟨"b", false, SERVICE_FIRESTORE, "us-central1"⟩]).2 = false ∧
    (loadTriggers
      ⟨some 8080,
       fun n => if n = "a" then Except.error "connect ECONNREFUSED" else Except.ok "ok",
       fun _ => true⟩ 5001 "demo-proj" []
      [⟨"a", false, SERVICE_FIRESTORE, "us-central1"⟩,
       ⟨"b", false, SERVICE_FIRESTORE, "us-central1"⟩]).1.knownTriggerIDs = [] ∧
    ¬("b" ∈ (loadTriggers
      ⟨some 8080,
       fun n => if n = "a" then Except.error "connect ECONNREFUSED" else Except.ok "ok",
       fun _ => true⟩ 5001 "demo-proj" []
      [⟨"a", false, SERVICE_FIRESTORE, "us-central1"⟩,
       ⟨"b", false, SERVICE_FIRESTORE, "us-central1"⟩]).1.knownTriggerIDs) := by
  refine ⟨by decide, by decide, by decide⟩

theorem lookupEnv_nil (k : String) : lookupEnv [] k = none := rfl

theorem lookupEnv_upsert (m : List (String × String)) (k v k2 : String) :
    lookupEnv (upsert m k v) k2 = if k2 = k then some v else lookupEnv m k2 := by
  induction m with
  | nil =>
    simp only [lookupEnv, upsert]
    by_cases h : k2 = k
    · rw [List.find?_cons_of_pos _ (by simp [h]), if_pos h]
      rfl
    · rw [List.find?_cons_of_neg _
          (by simp only [beq_iff_eq]; exact fun hc => h hc.symm), if_neg h]
  | cons kv rest ih =>
    simp only [lookupEnv] at ih
    simp only [lookupEnv, upsert]
    by_cases hkv : kv.1 = k
    · rw [if_pos hkv]
      by_cases h : k2 = k
      · rw [List.find?_cons_of_pos _ (by simp [h]), if_pos h]
        rfl
      · rw [List.find?_cons_of_neg _
            (by simp only [beq_iff_eq]; exact fun hc => h hc.symm),
          List.find?_cons_of_neg _
            (by simp only [beq_iff_eq]; rw [hkv]; exact fun hc => h hc.symm),
          if_neg h]
    · rw [if_neg hkv]
      by_cases hh : kv.1 = k2
      · have hk2 : ¬(k2 = k) := fun hc => hkv (by rw [hh, hc])
        rw [List.find?_cons_of_pos _ (by simp [hh]),
          List.find?_cons_of_pos _ (by simp [hh]), if_neg hk2]
      · rw [List.find?_cons_of_neg _ (by simp only [beq_iff_eq]; exact hh),
          List.find?_cons_of_neg _ (by simp only [beq_iff_eq]; exact hh)]
        exact ih

theorem lookupEnv_objSpread (adds m : List (String × String)) (k : String) :
    lookupEnv (objSpread m adds) k =
      (lookupLast adds k).orElse (fun _ => lookupEnv m k) := by
  induction adds generalizing m with
  | nil => rfl
  | cons kv rest ih =>
    have hstep2 : objSpread m (kv :: rest) = objSpread (upsert m kv.1 kv.2) rest := rfl
    rw [hstep2, ih, lookupLast]
    cases hl : lookupLast rest k with
    | some v => rfl
    | none =>
      show lookupEnv (upsert m kv.1 kv.2) k =
        (if kv.1 = k then some kv.2 else none).orElse (fun _ => lookupEnv m k)
      rw [lookupEnv_upsert]
      by_cases h : kv.1 = k
      · rw [if_pos (Eq.symm h), if_pos h]
        rfl
      · rw [if_neg (fun hc => h (Eq.symm hc)), if_neg h]
        rfl

/-- C9 amended: in the spawn environment `{ node: nodeBinary, ...opts.env,
...process.env }` the last spread wins, so the ambient process environment
overrides the `opts.env` overrides rather than the reverse: a key of
`opts.env` takes effect only when the ambient environment lacks it, and
`node` maps to `nodeBinary` only when neither `opts.env` nor the ambient
environment binds `node`.  The worker's cwd is `bundle.cwd` as claimed. -/
theorem spawn_env_ambient_wins (serialize : FunctionsRuntimeBundle → String)
    (nodeBinary runtimePath : String) (frb : FunctionsRuntimeBundle)
    (serializedTriggers : Option String)
    (optsEnv procEnv : List (String × String)) (k : String) :
    lookupEnv (spawnEnv nodeBinary optsEnv procEnv) k =
      (lookupLast procEnv k).orElse (fun _ =>
        (lookupLast optsEnv k).orElse (fun _ =>
          if k = "node" then some nodeBinary else none)) ∧
    (invokeRuntimeSpawn serialize nodeBinary runtimePath frb serializedTriggers
      optsEnv procEnv).cwd = frb.cwd ∧
    (invokeRuntimeSpawn serialize nodeBinary runtimePath frb serializedTriggers
      optsEnv procEnv).env = spawnEnv nodeBinary optsEnv procEnv := by
  refine ⟨?_, rfl, rfl⟩
  unfold spawnEnv
  rw [lookupEnv_objSpread]
  cases lookupLast procEnv k with
  | some v => rfl
  | none =>
    show lookupEnv (objSpread (upsert [] "node" nodeBinary) optsEnv) k =
      (lookupLast optsEnv k).orElse (fun _ =>
        if k = "node" then some nodeBinary else none)
    rw [lookupEnv_objSpread]
    cases lookupLast optsEnv k with
    | some v => rfl
    | none =>
      show lookupEnv (upsert [] "node" nodeBinary) k =
        if k = "node" then some nodeBinary else none
      rw [lookupEnv_upsert]
      by_cases h : k = "node"
      · rw [if_pos h, if_pos h]
      · rw [if_neg h, if_neg h]
        rfl

/-- C9 counterexample: with override `FOO=override` in `opts.env` and
ambient `FOO=ambient` in `process.env`, the spawned environment carries the
ambient value, not the override the claim promises. -/
theorem opts_env_override_loses :
    lookupEnv (spawnEnv "nodebin" [("FOO", "override")] [("FOO", "ambient")]) "FOO" =
      some "ambient" ∧
    lookupEnv (spawnEnv "nodebin" [("FOO", "override")] [("FOO", "ambient")]) "FOO" ≠
      some "override" := by
  refine ⟨by decide, by decide⟩

/-- C10: `stop()` resolves immediately without awaiting completion of the
listening socket's close — its outcome is independent of whether the close
ever completes, it only initiates `close()` — and calling it when `start()`
never ran (no server) succeeds and leaves the state unchanged; in all cases
the trigger table and the known-trigger set are untouched. -/
theorem stop_resolves_immediately (d1 d2 : Bool) (st : EmulatorState)
    (s : ServerState) (trs : List TriggerDefinition) (ids : List String) :
    stop d1 st = stop d2 st ∧
    (stop d1 st).2.triggers = st.triggers ∧
    (stop d1 st).2.knownTriggerIDs = st.knownTriggerIDs ∧
    stop d1 ⟨none, trs, ids⟩ = ((), ⟨none, trs, ids⟩) ∧
    (stop d1 ⟨some s, trs, ids⟩).2.server = some { s with closeInitiated := true } := by
  refine ⟨rfl, ?_, ?_, rfl, rfl⟩ <;>
    (unfold stop; cases st.server <;> rfl)
